import Mathlib

/-!
Shallow embedding of the libtmux option/hook text pipeline: the sparse indexed
sequence TmuxArray, the option line parsing functions of options.py, the hook
listing factory of _internal/constants.py, the typed option records, and the
scope-aware flag building of options.py and hooks.py. Each definition mirrors
one Python function or method of the repository; fallible code returns Except.
-/

namespace Libtmux

/-- Characters of a Python string; string munging is modelled on character lists. -/
abbrev Str := List Char

/-- Python exceptions the embedded code can raise. -/
inductive PyErr where
  | typeError (msg : String) : PyErr
  | valueError (msg : String) : PyErr
  | assertionError : PyErr
  | indexError (msg : String) : PyErr
  deriving DecidableEq, Repr

/-- Assignment d[k] = v on an insertion-ordered association list, as on a Python
dict: replace the value in place when the key exists, else append at the end. -/
def pySet {κ ν : Type} [DecidableEq κ] (d : List (κ × ν)) (k : κ) (v : ν) : List (κ × ν) :=
  if k ∈ d.map Prod.fst then d.map (fun p => if p.1 = k then (k, v) else p) else d ++ [(k, v)]

/-- Lookup d.get(k) on an association list. -/
def alookup {κ ν : Type} [DecidableEq κ] (k : κ) : List (κ × ν) → Option ν
  | [] => none
  | p :: t => if p.1 = k then some p.2 else alookup k t

/-- Sparse indexed sequence: class TmuxArray(t.Dict[int, T]), a dict keyed by
non-negative integers, in insertion order. -/
abbrev TmuxArray (α : Type) := List (Nat × α)

/-- Method add of TmuxArray: plain item assignment self[index] = value. -/
def TmuxArray.add {α : Type} (d : TmuxArray α) (index : Nat) (value : α) : TmuxArray α :=
  pySet d index value

/-- Python max over a list of keys: raises ValueError on an empty sequence. -/
def pyMax : List Nat → Except PyErr Nat
  | [] => .error (.valueError "max arg is an empty sequence")
  | k :: ks => .ok (ks.foldl Nat.max k)

/-- Method append of TmuxArray: index = max(self.keys()) + 1 then self[index] = value.
On an empty array the call to max raises ValueError. -/
def TmuxArray.append {α : Type} (d : TmuxArray α) (value : α) : Except PyErr (TmuxArray α) :=
  match pyMax (d.map Prod.fst) with
  | .error e => .error e
  | .ok m => .ok (pySet d (m + 1) value)

/-- Method as_list of TmuxArray: the values listed by ascending key, following
sorted(self.keys()). -/
def TmuxArray.as_list {α : Type} (d : TmuxArray α) : List α :=
  ((d.map Prod.fst).insertionSort (· ≤ ·)).filterMap (fun k => alookup k d)

/-- Assign the pairs of ps one by one (d[i] = v) starting from an empty TmuxArray. -/
def buildArray {α : Type} (ps : List (Nat × α)) : TmuxArray α :=
  ps.foldl (fun d p => pySet d p.1 p.2) []

/-- Python values flowing through the option pipeline. Constructor tmuxArray is a
dict subclass in the source, so an isinstance check against dict is true for it
as well. -/
inductive PyVal where
  | pynone : PyVal
  | str (s : String) : PyVal
  | int (n : Int) : PyVal
  | bool (b : Bool) : PyVal
  | list (xs : List PyVal) : PyVal
  | dict (entries : List (PyVal × PyVal)) : PyVal
  | tmuxArray (entries : List (PyVal × PyVal)) : PyVal

/-- Python str.isdigit, restricted to ASCII decimal digit strings. -/
def pyIsDigit (s : String) : Bool := !s.data.isEmpty && s.data.all Char.isDigit

/-- Numeric value int(s) of a decimal digit string. -/
def digitsToNat (s : String) : Nat := s.data.foldl (fun n c => n * 10 + (c.toNat - 48)) 0

/-- Function convert_value of options.py: a digit string becomes an int, on becomes
True, off becomes False, any other string is unchanged; non-strings pass through. -/
def convert_value : PyVal → PyVal
  | .str s =>
    if pyIsDigit s then .int (digitsToNat s)
    else if s = "on" then .bool true
    else if s = "off" then .bool false
    else .str s
  | v => v

/-- Index semantics of a Python list item assignment: ints and bools are valid
indices (negative ints count from the end); any other type raises TypeError. -/
def pyListIdx (len : Nat) : PyVal → Except PyErr Nat
  | .int n =>
    let m : Int := if n < 0 then n + len else n
    if 0 ≤ m ∧ m < len then .ok m.toNat
    else .error (.indexError "list assignment index out of range")
  | .bool b =>
    let n : Nat := if b then 1 else 0
    if n < len then .ok n
    else .error (.indexError "list assignment index out of range")
  | _ => .error (.typeError "list indices must be integers or slices")

/-- Loop of convert_values over a plain list: iterating for v in value while
executing value[v] = convert_value(v); the element itself is used as the index. -/
def listConvertLoop : Nat → Nat → List PyVal → Except PyErr (List PyVal)
  | 0, _, state => .ok state
  | fuel + 1, i, state =>
    if hlt : i < state.length then
      let v := state.get ⟨i, hlt⟩
      match pyListIdx state.length v with
      | .error e => .error e
      | .ok m => listConvertLoop fuel (i + 1) (state.set m (convert_value v))
    else .ok state

/-- Tokenizer state of shlex in posix mode, as used by shlex.split. -/
inductive ShState where
  | ws : ShState
  | word : ShState
  | singleQ : ShState
  | doubleQ : ShState
  | escWord : ShState
  | escDouble : ShState
  deriving DecidableEq

/-- Running state of the shlex tokenizer: current token, whether a quote was seen in
the current token, tokens emitted so far, and the machine state. -/
structure ShlexSt where
  tok : Str
  quoted : Bool
  acc : List Str
  st : ShState

/-- Whitespace recognized by shlex. -/
def shlexWs (c : Char) : Bool := c = ' ' || c = '\t' || c = '\r' || c = '\n'

/-- One character step of the shlex posix tokenizer with whitespace splitting. -/
def shlexStep (s : ShlexSt) (c : Char) : ShlexSt :=
  match s.st with
  | .ws =>
    if shlexWs c then s
    else if c = '\\' then { s with st := .escWord }
    else if c = '\'' then { s with st := .singleQ }
    else if c = '"' then { s with st := .doubleQ }
    else { s with tok := s.tok ++ [c], st := .word }
  | .word =>
    if shlexWs c then
      if s.tok ≠ [] ∨ s.quoted = true then
        { tok := [], quoted := false, acc := s.acc ++ [s.tok], st := .ws }
      else { s with st := .ws }
    else if c = '\'' then { s with st := .singleQ }
    else if c = '"' then { s with st := .doubleQ }
    else if c = '\\' then { s with st := .escWord }
    else { s with tok := s.tok ++ [c] }
  | .singleQ =>
    if c = '\'' then { s with quoted := true, st := .word }
    else { s with quoted := true, tok := s.tok ++ [c] }
  | .doubleQ =>
    if c = '"' then { s with quoted := true, st := .word }
    else if c = '\\' then { s with quoted := true, st := .escDouble }
    else { s with quoted := true, tok := s.tok ++ [c] }
  | .escWord => { s with tok := s.tok ++ [c], st := .word }
  | .escDouble =>
    if c = '\\' ∨ c = '"' then { s with tok := s.tok ++ [c], st := .doubleQ }
    else { s with tok := s.tok ++ ['\\', c], st := .doubleQ }

/-- End-of-input handling of shlex: a pending quote or escape raises ValueError
(modelled as none); a pending token is emitted when nonempty or quoted. -/
def shlexFinalize (s : ShlexSt) : Option (List Str) :=
  match s.st with
  | .ws => some s.acc
  | .word => if s.tok ≠ [] ∨ s.quoted = true then some (s.acc ++ [s.tok]) else some s.acc
  | _ => none

/-- Call shlex.split(item) with posix rules and whitespace tokenizing; none models
the ValueError raised on an unclosed quotation or a trailing escape character. -/
def shlexSplit (input : Str) : Option (List Str) :=
  shlexFinalize (input.foldl shlexStep { tok := [], quoted := false, acc := [], st := .ws })

/-- Whitespace stripped by Python str.strip with no arguments. -/
def pyWsChar (c : Char) : Bool :=
  c = ' ' || c = '\t' || c = '\n' || c = '\r' || c = '\x0b' || c = '\x0c'

/-- Python str.strip with no arguments: remove leading and trailing whitespace. -/
def pyStrip (s : Str) : Str := ((s.dropWhile pyWsChar).reverse.dropWhile pyWsChar).reverse

/-- Python val.rstrip over the character set holding only the newline. -/
def rstripNewline (s : Str) : Str := (s.reverse.dropWhile (· = '\n')).reverse

/-- Python val.endswith for the newline suffix. -/
def endsWithNewline (s : Str) : Bool :=
  match s.reverse with
  | [] => false
  | c :: _ => c = '\n'

/-- Split item at the first space: the prefix before it and everything after it. -/
def splitFirstSpace : Str → Str × Str
  | [] => ([], [])
  | c :: t => if c = ' ' then ([], t) else
    let r := splitFirstSpace t
    (c :: r.1, r.2)

/-- Newline stripping parse_options_to_dict applies to a parsed value when it is a
string ending in a newline. -/
def stripValNewline : Option Str → Option Str
  | none => none
  | some s => if endsWithNewline s then some (rstripNewline s) else some s

/-- Function parse_options_to_dict of options.py over the lines of stdout: lines
with a space are shell-split into key and value, falling back to a plain two-part
split at the first space when shlex raises ValueError or yields a number of tokens
other than two; lines without a space carry an absent value; keys are stripped and
empty keys dropped. -/
def parse_options_to_dict (lines : List Str) : List (Str × Option Str) :=
  lines.foldl
    (fun output item =>
      let kv : Str × Option Str :=
        if item.contains ' ' then
          match shlexSplit item with
          | some [k, v] => (k, some v)
          | _ =>
            let r := splitFirstSpace item
            (r.1, some r.2)
        else (item, none)
      let key := pyStrip kv.1
      if key = [] then output
      else pySet output key (stripValNewline kv.2))
    []

/-- Function convert_values of options.py. The dict branch is checked first and also
captures TmuxArray (a dict subclass), rewriting each value in place; the dedicated
TmuxArray branch below it in the source is therefore unreachable; the list branch
runs value[v] = convert_value(v), using the element itself as the list index. -/
def convert_values : PyVal → Except PyErr PyVal
  | .pynone => .ok .pynone
  | .dict entries => .ok (.dict (entries.map (fun kv => (kv.1, convert_value kv.2))))
  | .tmuxArray entries => .ok (.tmuxArray (entries.map (fun kv => (kv.1, convert_value kv.2))))
  | .list xs => (listConvertLoop xs.length 0 xs).map .list
  | v => .ok (convert_value v)

/-- Characters matched by the regex class of word characters plus the dash, as in
the pattern shared by explode_arrays and Hooks.from_stdout. -/
def wordDashChar (c : Char) : Bool := c.isAlphanum || c = '_' || c = '-'

/-- Numeric value of a decimal digit character list. -/
def digitsVal (s : Str) : Nat := s.foldl (fun n c => n * 10 + (c.toNat - 48)) 0

/-- Optional bracketed index group of the shared regex: some index exactly when the
remainder starts with an opening bracket, one or more digits and a closing
bracket. -/
def bracketIndex : Str → Option Nat
  | '[' :: t =>
    let ds := t.takeWhile Char.isDigit
    (match t.drop ds.length with
      | ']' :: _ => if ds = [] then none else some (digitsVal ds)
      | _ => none)
  | _ => none

/-- Model of re.match for the pattern of a hook name optionally followed by a
bracketed index: the longest nonempty prefix of word or dash characters is the
name group; the index group matches only when the bracketed digits follow it
immediately; none when the key does not start with a word or dash character. -/
def matchArrayKey (key : Str) : Option (Str × Option Nat) :=
  let hook := key.takeWhile wordDashChar
  if hook = [] then none
  else some (hook, bracketIndex (key.dropWhile wordDashChar))

/-- Values held by the exploded options dict: a scalar (possibly absent), a
TmuxArray container, or a plain dict container used for terminal-features. -/
inductive ExplodedVal where
  | scalar : Option Str → ExplodedVal
  | arr : TmuxArray (Option Str) → ExplodedVal
  | tbl : List (Nat × Option Str) → ExplodedVal
  deriving DecidableEq

/-- Step of explode_arrays of options.py for one key and value. Mirrors the source:
a default container type chosen from the full original key, pass-through (or
forced wrapping) for keys without a bracket, a regex match for bracketed keys in
which a missing index group stores nothing at all, and an exception fallback
(reached when item assignment on a stored scalar string raises TypeError) that
stores under the already truncated base name. -/
def explodeStep (force_array : Bool) (options : List (Str × ExplodedVal)) (key : Str)
    (val : Option Str) : List (Str × ExplodedVal) :=
  let dflt : ExplodedVal := if key = "terminal-features".toList then .tbl [] else .arr []
  if ¬ key.contains '[' then
    if force_array then
      match val with
      | none => pySet options key dflt
      | some v =>
        match dflt with
        | .tbl _ => pySet options key (.tbl [(0, some v)])
        | _ => pySet options key (.arr [(0, some v)])
    else pySet options key (.scalar val)
  else
    match matchArrayKey key with
    | none => options
    | some (_, none) => options
    | some (hook, some index) =>
      let options1 :=
        if alookup hook options = none ∨ alookup hook options = some (.scalar none) then
          pySet options hook dflt
        else options
      match alookup hook options1 with
      | some (.arr a) => pySet options1 hook (.arr (pySet a index val))
      | some (.tbl t) => pySet options1 hook (.tbl (pySet t index val))
      | _ =>
        if force_array ∧ val ≠ none ∧ val ≠ some [] then
          match dflt with
          | .tbl _ => pySet options1 hook (.tbl [])
          | _ => pySet options1 hook (.arr [(0, val)])
        else pySet options1 hook (.scalar val)

/-- Function explode_arrays of options.py: fold of the per-key step over the flat
dict in insertion order. -/
def explode_arrays (force_array : Bool) (d : List (Str × Option Str)) : List (Str × ExplodedVal) :=
  d.foldl (fun options kv => explodeStep force_array options kv.1 kv.2) []

/-- Field names declared on the Hooks dataclass of _internal/constants.py. -/
def hookFieldNames : List String :=
  ["alert_activity", "alert_bell", "alert_silence", "client_active", "client_attached",
   "client_detached", "client_focus_in", "client_focus_out", "client_resized",
   "client_session_changed", "pane_died", "pane_exited", "pane_focus_in", "pane_focus_out",
   "pane_set_clipboard", "session_created", "session_closed", "session_renamed",
   "window_linked", "window_renamed", "window_resized", "window_unlinked",
   "client_detached_control", "client_session_changed_control", "config_error",
   "continue_control", "exit_control", "extended_output", "layout_change",
   "message_control", "output", "pane_mode_changed", "paste_buffer_changed",
   "paste_buffer_deleted", "pause_control", "session_changed_control",
   "session_renamed_control", "session_window_changed", "sessions_changed",
   "subscription_changed", "unlinked_window_add", "unlinked_window_close",
   "unlinked_window_renamed", "window_add", "window_close", "window_pane_changed",
   "window_renamed_control", "after_bind_key", "after_capture_pane", "after_copy_mode",
   "after_display_message", "after_display_panes", "after_kill_pane", "after_list_buffers",
   "after_list_clients", "after_list_keys", "after_list_panes", "after_list_sessions",
   "after_list_windows", "after_load_buffer", "after_lock_server", "after_new_session",
   "after_new_window", "after_paste_buffer", "after_pipe_pane", "after_queue",
   "after_refresh_client", "after_rename_session", "after_rename_window",
   "after_resize_pane", "after_resize_window", "after_save_buffer", "after_select_layout",
   "after_select_pane", "after_select_window", "after_send_keys", "after_set_buffer",
   "after_set_environment", "after_set_hook", "after_set_option", "after_show_environment",
   "after_show_messages", "after_show_options", "after_split_window"]

/-- Hook field names as character lists. -/
def hookFields : List Str := hookFieldNames.map String.toList

/-- Python str.lstrip over a percent set: remove leading percent markers. -/
def lstripPercent (s : Str) : Str := s.dropWhile (· = '%')

/-- Python str.replace of dashes by underscores. -/
def underscore (s : Str) : Str := s.map (fun c => if c = '-' then '_' else c)

/-- Loop of Hooks.from_stdout of _internal/constants.py over hook listing lines:
empty or spaceless lines are skipped; a line whose name part does not start with a
word or dash character fails the assert on the regex match; a matched name without
the bracketed index group reaches int(None), a TypeError; a matched index stores
the command at that index of the per-hook TmuxArray. -/
def fromStdoutLoop (output : List (Str × TmuxArray Str)) :
    List Str → Except PyErr (List (Str × TmuxArray Str))
  | [] => .ok output
  | line :: rest =>
    if line = [] ∨ ¬ line.contains ' ' then fromStdoutLoop output rest
    else
      let fullHook := (splitFirstSpace line).1
      let cmd := (splitFirstSpace line).2
      match matchArrayKey fullHook with
      | none => .error .assertionError
      | some (hook0, idx) =>
        let hook := underscore (lstripPercent hook0)
        match idx with
        | none => .error (.typeError "int argument cannot be NoneType")
        | some index =>
          let output1 := if (alookup hook output).isSome then output else pySet output hook []
          let arr := (alookup hook output1).getD []
          fromStdoutLoop (pySet output1 hook (pySet arr index cmd)) rest

/-- Factory Hooks.from_stdout: the line loop followed by the cls(**output) call,
whose generated dataclass init raises TypeError on any keyword that is not a
declared hook field. -/
def hooksFromStdout (lines : List Str) : Except PyErr (List (Str × TmuxArray Str)) :=
  match fromStdoutLoop [] lines with
  | .error e => .error e
  | .ok output =>
    if output.all (fun kv => hookFields.contains kv.1) then .ok output
    else .error (.typeError "unexpected keyword argument")

/-- Python str.rstrip over an asterisk set: remove trailing asterisks. -/
def rstripStar (s : Str) : Str := (s.reverse.dropWhile (· = '*')).reverse

/-- Shared body of the custom init of ServerOptions, SessionOptions, WindowOptions
and PaneOptions of _internal/constants.py: every keyword key has dashes replaced
by underscores and is then assigned with setattr. The classes declare no slots and
no custom setattr (SkipDefaultFieldsReprMixin only customizes repr), so the
assignment succeeds for any name, declared field or not, and the init is total. -/
def scopedOptionsInit (kwargs : List (Str × PyVal)) : List (Str × PyVal) :=
  kwargs.foldl (fun attrs kv => pySet attrs (underscore kv.1) kv.2) []

/-- Body of the init of the union Options class: as scopedOptionsInit, but trailing
asterisks marking inherited options are removed after the dash substitution. -/
def optionsInit (kwargs : List (Str × PyVal)) : List (Str × PyVal) :=
  kwargs.foldl (fun attrs kv => pySet attrs (rstripStar (underscore kv.1)) kv.2) []

/-- Field names declared on the ServerOptions dataclass. -/
def serverOptionFieldNames : List String :=
  ["backspace", "buffer_limit", "command_alias", "default_terminal", "copy_command",
   "escape_time", "editor", "exit_empty", "exit_unattached", "extended_keys",
   "focus_events", "history_file", "message_limit", "prompt_history_limit",
   "set_clipboard", "terminal_features", "terminal_overrides", "user_keys"]

/-- ServerOptions field names as character lists. -/
def serverOptionFields : List Str := serverOptionFieldNames.map String.toList

/-- Enumeration OptionScope of constants.py. -/
inductive OptionScope where
  | Server : OptionScope
  | Session : OptionScope
  | Window : OptionScope
  | Pane : OptionScope
  deriving DecidableEq

/-- Mapping OPTION_SCOPE_FLAG_MAP of constants.py. -/
def OPTION_SCOPE_FLAG_MAP : OptionScope → String
  | .Server => "-s"
  | .Session => ""
  | .Window => "-w"
  | .Pane => "-p"

/-- Modelled from the spec: HOOK_SCOPE_FLAG_MAP is imported by hooks.py from
libtmux.constants, and that table is missing from the sources in scope here. The
spec fixes the scope enumeration (Server, Session, Window, Pane) with the flag
mapping (empty, -s, -w, -p) in enumeration order; only the Window and Pane
entries take part in the version gate. -/
def HOOK_SCOPE_FLAG_MAP : OptionScope → String
  | .Server => ""
  | .Session => "-s"
  | .Window => "-w"
  | .Pane => "-p"

/-- Scope argument of the option and hook commands: the sentinel default value
DEFAULT_OPTION_SCOPE, an explicit None, or an explicit scope. -/
inductive ScopeArg where
  | useDefault : ScopeArg
  | noScope : ScopeArg
  | explicit (s : OptionScope) : ScopeArg

/-- Replacement of the sentinel by the default scope of the target, shared by every
option and hook command. -/
def resolveScope (defaultScope : Option OptionScope) : ScopeArg → Option OptionScope
  | .useDefault => defaultScope
  | .noScope => none
  | .explicit s => some s

/-- Flag added for a switch typed Optional[bool]: present only when the argument is
not None and truthy. -/
def boolFlag (b : Option Bool) (f : String) : List String := if b = some true then [f] else []

/-- Warning text used by the hook version gate. -/
def hookGateWarning : String := "Scope flag -w and -p requires tmux 3.2+. Ignoring."

/-- Warning text of the deprecated g switch. -/
def gDeprecationWarning : String := "g argument is deprecated in favor of _global"

/-- Scope flag portion shared by the hook commands of hooks.py: the flags -p and -w
are dropped with a warning when the tool version is below 3.2; every other flag
passes through. -/
def hookScopeGate (lt32 : Bool) (s : OptionScope) : List String × List String :=
  let flag := HOOK_SCOPE_FLAG_MAP s
  if (flag = "-p" ∨ flag = "-w") ∧ lt32 = true then ([], [hookGateWarning])
  else ([flag], [])

/-- Flag list and warnings built by set_option of options.py: boolean switches in
declaration order, the deprecated g alias, then the scope flag. The scope flag is
appended with no version gate, so the version argument is unused. -/
def set_option_flags (_lt32 : Bool) (defaultScope : Option OptionScope)
    (unset unset_panes _format prevent_overwrite ignore_errors app g _global : Option Bool)
    (scope : ScopeArg) : List String × List String :=
  let warns := if g ≠ none then [gDeprecationWarning] else []
  let g2 := if g ≠ none then g else _global
  let flags := boolFlag unset "-u" ++ boolFlag unset_panes "-U" ++ boolFlag _format "-F" ++
    boolFlag prevent_overwrite "-o" ++ boolFlag ignore_errors "-q" ++ boolFlag app "-a" ++
    boolFlag g2 "-g"
  match resolveScope defaultScope scope with
  | some s => (flags ++ [OPTION_SCOPE_FLAG_MAP s], warns)
  | none => (flags, warns)

/-- Flag list built by unset_option of options.py: -U when unset_panes is truthy,
else -u, then -q, -g and the ungated scope flag. -/
def unset_option_flags (_lt32 : Bool) (defaultScope : Option OptionScope)
    (unset_panes _global ignore_errors : Option Bool) (scope : ScopeArg) :
    List String × List String :=
  let flags := (if unset_panes = some true then ["-U"] else ["-u"]) ++
    boolFlag ignore_errors "-q" ++ boolFlag _global "-g"
  match resolveScope defaultScope scope with
  | some s => (flags ++ [OPTION_SCOPE_FLAG_MAP s], [])
  | none => (flags, [])

/-- Flag list and warnings built by _show_options of options.py: -g (with a
deprecation warning when passed through g), the ungated scope flag, then -A, -H
and -q. -/
def show_options_flags (_lt32 : Bool) (defaultScope : Option OptionScope)
    (g _global include_hooks include_inherited ignore_errors : Option Bool)
    (scope : ScopeArg) : List String × List String :=
  let warns := if g = some true then [gDeprecationWarning] else []
  let flags0 : List String :=
    if g = some true then ["-g"] else if _global = some true then ["-g"] else []
  let flags1 :=
    match resolveScope defaultScope scope with
    | some s => flags0 ++ [OPTION_SCOPE_FLAG_MAP s]
    | none => flags0
  (flags1 ++ boolFlag include_inherited "-A" ++ boolFlag include_hooks "-H" ++
    boolFlag ignore_errors "-q", warns)

/-- Flag list and warnings built by set_hook of hooks.py: boolean switches in
declaration order, then the scope flag subject to the version gate. -/
def set_hook_flags (lt32 : Bool) (defaultScope : Option OptionScope)
    (unset run _format prevent_overwrite ignore_errors app _global : Option Bool)
    (scope : ScopeArg) : List String × List String :=
  let flags := boolFlag unset "-u" ++ boolFlag run "-R" ++ boolFlag _format "-F" ++
    boolFlag prevent_overwrite "-o" ++ boolFlag ignore_errors "-q" ++ boolFlag app "-a" ++
    boolFlag _global "-g"
  match resolveScope defaultScope scope with
  | some s =>
    let gate := hookScopeGate lt32 s
    (flags ++ gate.1, gate.2)
  | none => (flags, [])

/-- Flag list and warnings built by unset_hook of hooks.py: -u, -q, -g in order,
then the scope flag subject to the version gate. -/
def unset_hook_flags (lt32 : Bool) (defaultScope : Option OptionScope)
    (_global ignore_errors : Option Bool) (scope : ScopeArg) : List String × List String :=
  let flags := ["-u"] ++ boolFlag ignore_errors "-q" ++ boolFlag _global "-g"
  match resolveScope defaultScope scope with
  | some s =>
    let gate := hookScopeGate lt32 s
    (flags ++ gate.1, gate.2)
  | none => (flags, [])

/-- Flag list and warnings built by show_hooks of hooks.py: -g, the scope flag
subject to the version gate, then -q. -/
def show_hooks_flags (lt32 : Bool) (defaultScope : Option OptionScope)
    (_global ignore_errors : Option Bool) (scope : ScopeArg) : List String × List String :=
  let flags0 : List String := if _global = some true then ["-g"] else []
  match resolveScope defaultScope scope with
  | some s =>
    let gate := hookScopeGate lt32 s
    (flags0 ++ gate.1 ++ boolFlag ignore_errors "-q", gate.2)
  | none => (flags0 ++ boolFlag ignore_errors "-q", [])

/-! Helper lemmas about the association-list primitives. -/

lemma pySet_of_not_mem {κ ν : Type} [DecidableEq κ] {d : List (κ × ν)} {k : κ}
    (h : k ∉ d.map Prod.fst) (v : ν) : pySet d k v = d ++ [(k, v)] := by
  simp [pySet, h]

lemma foldl_pySet_fresh {κ κ' ν : Type} [DecidableEq κ'] (t : κ → κ') :
    ∀ (ps : List (κ × ν)) (acc : List (κ' × ν)),
      (acc.map Prod.fst ++ ps.map (fun p => t p.1)).Nodup →
      ps.foldl (fun d p => pySet d (t p.1) p.2) acc = acc ++ ps.map (fun p => (t p.1, p.2))
  | [], acc, _ => by simp
  | p :: tl, acc, h => by
    have hnotmem : t p.1 ∉ acc.map Prod.fst := by
      intro hmem
      exact (List.nodup_append.mp h).2.2 hmem (by simp)
    rw [List.foldl_cons, pySet_of_not_mem hnotmem,
      foldl_pySet_fresh t tl (acc ++ [(t p.1, p.2)]) (by simpa [List.append_assoc] using h)]
    simp

lemma alookup_eq_of_perm {κ ν : Type} [DecidableEq κ] {ps qs : List (κ × ν)}
    (h : ps.Perm qs) : (ps.map Prod.fst).Nodup → ∀ k, alookup k ps = alookup k qs := by
  induction h with
  | nil => exact fun _ _ => rfl
  | cons x _ ih =>
    intro hnd k
    by_cases hx : x.1 = k
    · simp [alookup, hx]
    · simp only [alookup, if_neg hx]
      exact ih (by simpa using hnd.of_cons) k
  | swap x y l =>
    intro hnd k
    have h2 : (y.1 :: x.1 :: l.map Prod.fst).Nodup := by
      rw [List.map_cons, List.map_cons] at hnd
      exact hnd
    have hxy : y.1 ≠ x.1 := fun he =>
      (List.nodup_cons.mp h2).1 (by rw [he]; exact List.mem_cons_self _ _)
    by_cases h1 : y.1 = k <;> by_cases h2k : x.1 = k <;>
      simp [alookup, h1, h2k]
    exact absurd (h1.trans h2k.symm) hxy
  | trans h1 _ ih1 ih2 =>
    intro hnd k
    rw [ih1 hnd k, ih2 (((h1.map Prod.fst).nodup_iff).mp hnd) k]

lemma filterMap_congr_mem {α β : Type} {f g : α → Option β} :
    ∀ {l : List α}, (∀ a ∈ l, f a = g a) → l.filterMap f = l.filterMap g
  | [], _ => rfl
  | a :: l, h => by
    rw [List.filterMap_cons, List.filterMap_cons, h a (by simp),
      filterMap_congr_mem (fun b hb => h b (by simp [hb]))]

lemma filterMap_alookup_self {κ ν : Type} [DecidableEq κ] :
    ∀ (L : List (κ × ν)), (L.map Prod.fst).Nodup →
      (L.map Prod.fst).filterMap (fun k => alookup k L) = L.map Prod.snd
  | [], _ => rfl
  | p :: t, hnd => by
    have hp : p.1 ∉ t.map Prod.fst := (List.nodup_cons.mp (by simpa using hnd)).1
    have h1 : alookup p.1 (p :: t) = some p.2 := by simp [alookup]
    have h2 : (t.map Prod.fst).filterMap (fun k => alookup k (p :: t)) =
        (t.map Prod.fst).filterMap (fun k => alookup k t) := by
      apply filterMap_congr_mem
      intro k hk
      have hne : p.1 ≠ k := fun he => hp (he ▸ hk)
      simp [alookup, hne]
    simp only [List.map_cons, List.filterMap_cons, h1, h2,
      filterMap_alookup_self t (by simpa using hnd.of_cons)]

lemma alookup_map_of_mem {κ κ' ν : Type} [DecidableEq κ'] (t : κ → κ') :
    ∀ {ps : List (κ × ν)}, (ps.map (fun p => t p.1)).Nodup →
      ∀ {k : κ} {v : ν}, (k, v) ∈ ps →
        alookup (t k) (ps.map (fun p => (t p.1, p.2))) = some v
  | [], _, _, _, hm => by simp at hm
  | p :: tl, hnd, k, v, hm => by
    by_cases he : t p.1 = t k
    · rcases List.mem_cons.mp hm with hh | ht
      · rw [← hh]
        simp [alookup]
      · exfalso
        have h1 : t k ∈ tl.map (fun p => t p.1) := List.mem_map.mpr ⟨(k, v), ht, rfl⟩
        exact (List.nodup_cons.mp (by simpa using hnd)).1 (he ▸ h1)
    · have ht : (k, v) ∈ tl := by
        rcases List.mem_cons.mp hm with hh | ht
        · exact absurd (congrArg (fun p => t p.1) hh.symm) he
        · exact ht
      simp only [List.map_cons, alookup, if_neg he]
      exact alookup_map_of_mem t (by simpa using hnd.of_cons) ht

/-! Claim theorems. -/

/-- C3 counterexample: the claim maps Server to the empty flag, but the source table
OPTION_SCOPE_FLAG_MAP maps Server to -s. -/
theorem option_scope_flag_map_server_cex :
    OPTION_SCOPE_FLAG_MAP OptionScope.Server = "-s" ∧
      ¬ OPTION_SCOPE_FLAG_MAP OptionScope.Server = "" := by
  exact ⟨rfl, by decide⟩

/-- C3 amended: OPTION_SCOPE_FLAG_MAP maps Server to -s, Session to the empty flag,
Window to -w and Pane to -p. -/
theorem option_scope_flag_map_values :
    OPTION_SCOPE_FLAG_MAP OptionScope.Server = "-s" ∧
      OPTION_SCOPE_FLAG_MAP OptionScope.Session = "" ∧
      OPTION_SCOPE_FLAG_MAP OptionScope.Window = "-w" ∧
      OPTION_SCOPE_FLAG_MAP OptionScope.Pane = "-p" :=
  ⟨rfl, rfl, rfl, rfl⟩

/-- C4: evaluation of TmuxArray.append. On a non-empty array with maximum index m
the value lands at index m + 1, including for non-contiguous indices, but on an
empty array the call to max raises ValueError instead of inserting at index 0. -/
theorem tmux_array_append_eval :
    TmuxArray.append ([] : TmuxArray String) "x"
        = .error (.valueError "max arg is an empty sequence") ∧
      TmuxArray.append ([(0, "a")] : TmuxArray String) "x" = .ok [(0, "a"), (1, "x")] ∧
      TmuxArray.append ([(5, "a"), (2, "b")] : TmuxArray String) "x"
        = .ok [(5, "a"), (2, "b"), (6, "x")] := by
  exact ⟨rfl, rfl, rfl⟩

/-- C5: evaluation of convert_values. On a mapping it rewrites every leaf in place,
but on a plain list the loop executes an item assignment indexed by the element
itself, raising TypeError on the first string leaf instead of replacing it. -/
theorem convert_values_eval :
    convert_values (PyVal.list [PyVal.str "on"])
        = .error (.typeError "list indices must be integers or slices") ∧
      convert_values (PyVal.dict [(PyVal.int 0, PyVal.str "50"), (PyVal.int 5, PyVal.str "off")])
        = .ok (.dict [(PyVal.int 0, PyVal.int 50), (PyVal.int 5, PyVal.bool false)]) := by
  exact ⟨rfl, rfl⟩

/-- C6: evaluation of Hooks.from_stdout. A hook line carrying a command but no
bracketed index reaches int(None) and raises TypeError, and a control-mode hook
line with a leading percent marker fails the assert on the regex match; parsing is
aborted instead of grouping the line. -/
theorem hooks_from_stdout_eval :
    hooksFromStdout ["alert-activity run-shell foo".toList]
        = .error (.typeError "int argument cannot be NoneType") ∧
      hooksFromStdout ["%output[0] refresh-client".toList] = .error .assertionError := by
  exact ⟨rfl, rfl⟩

/-- C1 counterexample: constructing a scoped option record from a mapping whose only
key does not normalize to any declared field raises nothing: the value is stored
under the normalized name as a new attribute, and that name is not among the
declared ServerOptions fields. -/
theorem options_init_unknown_key_no_error :
    scopedOptionsInit [("definitely-unknown".toList, PyVal.str "x")]
        = [("definitely_unknown".toList, PyVal.str "x")] ∧
      "definitely_unknown".toList ∉ serverOptionFields := by
  exact ⟨rfl, by decide⟩

/-- C1 amended: record construction never raises; every key is assigned after
hyphen normalization (and, for the union Options record, additional asterisk
stripping), so a mapping with pairwise distinct normalized keys assigns each value
to the attribute carrying its normalized name, whether or not that name is a
declared field; in particular a mapping whose keys all normalize to declared
fields succeeds and assigns each value to its field. -/
theorem options_init_total_assigns (kwargs : List (Str × PyVal)) :
    ((kwargs.map (fun kv => underscore kv.1)).Nodup →
      ∀ kv ∈ kwargs, alookup (underscore kv.1) (scopedOptionsInit kwargs) = some kv.2) ∧
    ((kwargs.map (fun kv => rstripStar (underscore kv.1))).Nodup →
      ∀ kv ∈ kwargs, alookup (rstripStar (underscore kv.1)) (optionsInit kwargs) = some kv.2) := by
  constructor
  · intro hnd kv hm
    obtain ⟨k, v⟩ := kv
    unfold scopedOptionsInit
    rw [foldl_pySet_fresh underscore kwargs [] (by simpa using hnd)]
    simp only [List.nil_append]
    exact alookup_map_of_mem underscore hnd hm
  · intro hnd kv hm
    obtain ⟨k, v⟩ := kv
    unfold optionsInit
    rw [foldl_pySet_fresh (fun s => rstripStar (underscore s)) kwargs [] (by simpa using hnd)]
    simp only [List.nil_append]
    exact alookup_map_of_mem (fun s => rstripStar (underscore s)) hnd hm

/-- C1 witness: the amended construction property at concrete inputs, an ordinary
hyphenated key and an inherited asterisk-marked key. -/
theorem options_init_total_assigns_witness :
    alookup (underscore "buffer-limit".toList)
        (scopedOptionsInit [("buffer-limit".toList, PyVal.int 100)]) = some (PyVal.int 100) ∧
      alookup (rstripStar (underscore "visual-activity*".toList))
        (optionsInit [("visual-activity*".toList, PyVal.str "on")]) = some (PyVal.str "on") :=
  ⟨(options_init_total_assigns [("buffer-limit".toList, PyVal.int 100)]).1
     (by decide) ("buffer-limit".toList, PyVal.int 100) (by simp),
   (options_init_total_assigns [("visual-activity*".toList, PyVal.str "on")]).2
     (by decide) ("visual-activity*".toList, PyVal.str "on") (by simp)⟩

/-- C2 counterexample: set-option with an explicit Pane scope under a tool version
below 3.2 still produces the -p flag and emits no warning; the version gate does
not apply to the option commands. -/
theorem set_option_scope_flag_ungated_cex :
    set_option_flags true none none none none none none none none none
        (.explicit .Pane) = (["-p"], []) ∧
      "-p" ∈ (set_option_flags true none none none none none none none none none
        (.explicit .Pane)).1 :=
  ⟨rfl, List.mem_singleton.mpr rfl⟩

/-- C2 amended: the below 3.2 version gate on the scope flags -p and -w applies to
the hook commands (set-hook, unset-hook, show-hooks), which drop the flag and emit
a warning, while the option commands (set-option, unset-option, show-options)
append the scope flag unconditionally with no warning at every version; scopes
whose flag is neither -p nor -w pass through the hook commands at every
version. -/
theorem scope_flag_version_gate_hooks_only (lt32 : Bool) (s : OptionScope) :
    set_hook_flags lt32 none none none none none none none none (.explicit s)
        = (if (HOOK_SCOPE_FLAG_MAP s = "-p" ∨ HOOK_SCOPE_FLAG_MAP s = "-w") ∧ lt32 = true
            then (([] : List String), [hookGateWarning])
            else ([HOOK_SCOPE_FLAG_MAP s], [])) ∧
      unset_hook_flags lt32 none none none (.explicit s)
        = (if (HOOK_SCOPE_FLAG_MAP s = "-p" ∨ HOOK_SCOPE_FLAG_MAP s = "-w") ∧ lt32 = true
            then (["-u"], [hookGateWarning])
            else (["-u", HOOK_SCOPE_FLAG_MAP s], [])) ∧
      show_hooks_flags lt32 none none none (.explicit s)
        = (if (HOOK_SCOPE_FLAG_MAP s = "-p" ∨ HOOK_SCOPE_FLAG_MAP s = "-w") ∧ lt32 = true
            then (([] : List String), [hookGateWarning])
            else ([HOOK_SCOPE_FLAG_MAP s], [])) ∧
      set_option_flags lt32 none none none none none none none none none (.explicit s)
        = ([OPTION_SCOPE_FLAG_MAP s], []) ∧
      unset_option_flags lt32 none none none none (.explicit s)
        = (["-u", OPTION_SCOPE_FLAG_MAP s], []) ∧
      show_options_flags lt32 none none none none none none (.explicit s)
        = ([OPTION_SCOPE_FLAG_MAP s], []) := by
  cases lt32 <;> cases s <;> exact ⟨rfl, rfl, rfl, rfl, rfl, rfl⟩

/-- C7 counterexample: a key containing a bracket with a non-numeric index is not
stored as a scalar under the original key; it is dropped and the resulting dict
has no entry for it. -/
theorem explode_arrays_drops_key_cex :
    explode_arrays false [("foo[bar]".toList, some "x".toList)]
        = ([] : List (Str × ExplodedVal)) ∧
      alookup "foo[bar]".toList
        (explode_arrays false [("foo[bar]".toList, some "x".toList)]) = none :=
  ⟨rfl, rfl⟩

lemma explodeStep_skip (force : Bool) (opts : List (Str × ExplodedVal)) {k : Str}
    (v : Option Str) (hbr : '[' ∈ k)
    (hidx : (matchArrayKey k).bind (fun p => p.2) = none) :
    explodeStep force opts k v = opts := by
  cases hmk : matchArrayKey k with
  | none => simp [explodeStep, hbr, hmk]
  | some p =>
    cases p with
    | mk h idx =>
      cases idx with
      | none => simp [explodeStep, hbr, hmk]
      | some i =>
        rw [hmk] at hidx
        simp at hidx

/-- C7 amended: a key containing an opening bracket whose index group fails to
parse as digits is silently dropped by explode_arrays: it contributes no entry at
all (neither under the original key nor under the base name), while the remaining
keys are processed exactly as if the malformed key were absent; one malformed key
still never aborts the whole explosion. -/
theorem explode_arrays_skips_indexless_bracket_key (force : Bool)
    (d1 d2 : List (Str × Option Str)) (k : Str) (v : Option Str)
    (hbr : '[' ∈ k)
    (hidx : (matchArrayKey k).bind (fun p => p.2) = none) :
    explode_arrays force (d1 ++ (k, v) :: d2) = explode_arrays force (d1 ++ d2) := by
  unfold explode_arrays
  rw [List.foldl_append, List.foldl_append, List.foldl_cons]
  congr 1
  exact explodeStep_skip force _ v hbr hidx

/-- C7 witness: the skip property at a concrete dict with a malformed middle key. -/
theorem explode_arrays_skips_witness :
    explode_arrays false ([("escape-time".toList, some "50".toList)] ++
        ("foo[bar]".toList, some "x".toList) :: [("editor".toList, some "vim".toList)])
      = explode_arrays false ([("escape-time".toList, some "50".toList)] ++
        [("editor".toList, some "vim".toList)]) :=
  explode_arrays_skips_indexless_bracket_key false _ _ _ _ (by decide) (by decide)

/-- C8: parse_options_to_dict is total by construction (its only fallible
subcomputation, shlex splitting, is returned as an Option and consumed by the
fallback branch, mirroring the try and except of the source, so every line
produces a dict update or is skipped); per line: a line with no space yields its
stripped key with an absent value; a line whose shell splitting yields exactly a
key and a value stores the shell-unquoted value; a line on which shlex raises
ValueError degrades to a plain two-part split at the first space. -/
theorem parse_options_line_cases (item : Str) :
    (' ' ∉ item → pyStrip item ≠ [] →
      parse_options_to_dict [item] = [(pyStrip item, none)]) ∧
    (∀ k v, ' ' ∈ item → shlexSplit item = some [k, v] → pyStrip k ≠ [] →
      parse_options_to_dict [item] = [(pyStrip k, stripValNewline (some v))]) ∧
    (' ' ∈ item → shlexSplit item = none →
      pyStrip (splitFirstSpace item).1 ≠ [] →
      parse_options_to_dict [item] =
        [(pyStrip (splitFirstSpace item).1,
          stripValNewline (some (splitFirstSpace item).2))]) := by
  refine ⟨?_, ?_, ?_⟩
  · intro hsp hkey
    simp [parse_options_to_dict, hsp, hkey, pySet, stripValNewline]
  · intro k v hsp hsh hkey
    simp [parse_options_to_dict, hsp, hsh, hkey, pySet]
  · intro hsp hsh hkey
    simp [parse_options_to_dict, hsp, hsh, hkey, pySet]

/-- C8 witness: the three line shapes at concrete inputs: a bare key, a well-formed
quoted line, and a line with an unclosed quotation. -/
theorem parse_options_line_cases_witness :
    parse_options_to_dict ["user-keys".toList] = [(pyStrip "user-keys".toList, none)] ∧
      parse_options_to_dict [("command-alias[0] \"choose-session=choose-tree -s\"\n").toList]
        = [(pyStrip "command-alias[0]".toList,
            stripValNewline (some "choose-session=choose-tree -s".toList))] ∧
      parse_options_to_dict [("a \"b c\n").toList]
        = [(pyStrip (splitFirstSpace ("a \"b c\n").toList).1,
            stripValNewline (some (splitFirstSpace ("a \"b c\n").toList).2))] :=
  ⟨(parse_options_line_cases _).1 (by decide) (by decide),
   (parse_options_line_cases _).2.1 "command-alias[0]".toList
     "choose-session=choose-tree -s".toList (by decide) (by decide) (by decide),
   (parse_options_line_cases _).2.2 (by decide) (by decide) (by decide)⟩

/-- Comparison of index and value pairs by their index, used to describe the order
that as_list produces. -/
def pairKeyLe {α : Type} (a b : Nat × α) : Prop := a.1 ≤ b.1

instance {α : Type} : DecidableRel (@pairKeyLe α) :=
  fun a b => inferInstanceAs (Decidable (a.1 ≤ b.1))

instance {α : Type} : IsTotal (Nat × α) pairKeyLe :=
  ⟨fun a b => Nat.le_total a.1 b.1⟩

instance {α : Type} : IsTrans (Nat × α) pairKeyLe :=
  ⟨fun _ _ _ h1 h2 => Nat.le_trans h1 h2⟩

lemma as_list_eq_sorted {α : Type} (d : List (Nat × α)) (hnd : (d.map Prod.fst).Nodup) :
    TmuxArray.as_list d = (d.insertionSort pairKeyLe).map Prod.snd := by
  have hperm : (d.insertionSort pairKeyLe).Perm d := List.perm_insertionSort _ _
  have hsorted : (d.insertionSort pairKeyLe).Sorted pairKeyLe := List.sorted_insertionSort _ _
  have hkeysperm : ((d.insertionSort pairKeyLe).map Prod.fst).Perm (d.map Prod.fst) :=
    hperm.map _
  have hkeysnd : ((d.insertionSort pairKeyLe).map Prod.fst).Nodup :=
    (hkeysperm.nodup_iff).mpr hnd
  have hkeyssorted : ((d.insertionSort pairKeyLe).map Prod.fst).Sorted (· ≤ ·) := by
    rw [List.Sorted, List.pairwise_map]
    exact hsorted
  have hsortkeys : (d.map Prod.fst).insertionSort (· ≤ ·)
      = (d.insertionSort pairKeyLe).map Prod.fst :=
    List.eq_of_perm_of_sorted ((List.perm_insertionSort _ _).trans hkeysperm.symm)
      (List.sorted_insertionSort _ _) hkeyssorted
  unfold TmuxArray.as_list
  rw [hsortkeys]
  have hfun : (fun k => alookup (ν := α) k d)
      = fun k => alookup k (d.insertionSort pairKeyLe) :=
    funext (fun k => alookup_eq_of_perm hperm.symm hnd k)
  rw [hfun]
  exact filterMap_alookup_self _ hkeysnd

lemma buildArray_eq_self {α : Type} (ps : List (Nat × α))
    (hnd : (ps.map Prod.fst).Nodup) : buildArray ps = ps := by
  unfold buildArray
  have h := foldl_pySet_fresh (fun k : Nat => k) ps [] (by simpa using hnd)
  simpa using h

/-- C9: assigning any finite family of pairs with pairwise distinct indices to a
TmuxArray yields as_list ordered by ascending index (the pairs sorted by index,
values in that order), with length equal to the number of pairs, the index set
preserved exactly with no gap-filling, and a result independent of the assignment
order. -/
theorem tmux_array_build_sorted {α : Type} (ps : List (Nat × α))
    (hnd : (ps.map Prod.fst).Nodup) :
    (buildArray ps).as_list = (ps.insertionSort pairKeyLe).map Prod.snd ∧
      (buildArray ps).as_list.length = ps.length ∧
      (buildArray ps).map Prod.fst = ps.map Prod.fst ∧
      ∀ qs : List (Nat × α), qs.Perm ps → (buildArray qs).as_list = (buildArray ps).as_list := by
  have hbuild := buildArray_eq_self ps hnd
  have hmain : (buildArray ps).as_list = (ps.insertionSort pairKeyLe).map Prod.snd := by
    rw [hbuild]
    exact as_list_eq_sorted ps hnd
  refine ⟨hmain, ?_, ?_, ?_⟩
  · rw [hmain, List.length_map, (List.perm_insertionSort _ _).length_eq]
  · rw [hbuild]
  · intro qs hq
    have hndq : (qs.map Prod.fst).Nodup := ((hq.map Prod.fst).nodup_iff).mpr hnd
    rw [buildArray_eq_self qs hndq, hbuild]
    unfold TmuxArray.as_list
    have hkeq : (qs.map Prod.fst).insertionSort (· ≤ ·)
        = (ps.map Prod.fst).insertionSort (· ≤ ·) :=
      List.eq_of_perm_of_sorted
        ((List.perm_insertionSort _ _).trans ((hq.map _).trans
          (List.perm_insertionSort _ _).symm))
        (List.sorted_insertionSort _ _) (List.sorted_insertionSort _ _)
    rw [hkeq]
    have hfun : (fun k => alookup (ν := α) k qs) = fun k => alookup k ps :=
      funext (fun k => alookup_eq_of_perm hq hndq k)
    rw [hfun]

/-- C9 witness: the build property at a concrete family with non-contiguous indices
assigned out of order, including the concrete sorted value list. -/
theorem tmux_array_build_sorted_witness :
    TmuxArray.as_list (buildArray [(5, "a"), (0, "b"), (2, "c")])
        = ([(5, "a"), (0, "b"), (2, "c")].insertionSort pairKeyLe).map Prod.snd ∧
      TmuxArray.as_list (buildArray [(5, "a"), (0, "b"), (2, "c")]) = ["b", "c", "a"] ∧
      (TmuxArray.as_list (buildArray [(5, "a"), (0, "b"), (2, "c")])).length = 3 := by
  have h := tmux_array_build_sorted [(5, "a"), (0, "b"), (2, "c")] (by decide)
  exact ⟨h.1, h.1.trans rfl, h.2.1⟩

/-- C10: the scalar coercion convert_value is idempotent: every coerced result is a
non-string and non-strings pass through unchanged. -/
theorem convert_value_idempotent (v : PyVal) :
    convert_value (convert_value v) = convert_value v := by
  cases v with
  | str s =>
    simp only [convert_value]
    by_cases hd : pyIsDigit s
    · rw [if_pos hd]
    · rw [if_neg hd]
      by_cases hon : s = "on"
      · rw [if_pos hon]
      · rw [if_neg hon]
        by_cases hoff : s = "off"
        · rw [if_pos hoff]
        · rw [if_neg hoff]
          simp [convert_value, hd, hon, hoff]
  | pynone => rfl
  | int n => rfl
  | bool b => rfl
  | list xs => rfl
  | dict entries => rfl
  | tmuxArray entries => rfl

end Libtmux
